import Mathlib

/-!
Verification of the LAMO container codec (src/conversor.py, with the
same reader duplicated in src/LamoViewer.py).

Bytes are modelled as `List Nat` (each element a byte value).  External
collaborators of the Python code (json.loads, zlib decompressobj, Fernet
decrypt, the password dialog, PIL image loading) are modelled as explicit
parameters gathered in the `Collab` structure; the code of the repository
itself (framing, cap checks, truthiness tests, the chunked decompression
loop, metadata defaulting) is translated directly.
-/

namespace Lamo

/-- Byte strings, as in Python `bytes`. -/
abbrev Bytes := List Nat

/-- MAGIC = b'LMGO' (bytes of the four ASCII characters L, M, G, O). -/
def MAGIC : Bytes := [76, 77, 71, 79]

/-- VERSION = 1. -/
def VERSION : Nat := 1

/-- MAX_META_SIZE = 1024 * 1024 (1 MiB), the metadata cap. -/
def MAX_META_SIZE : Nat := 1024 * 1024

/-- MAX_DECOMPRESSED_SIZE = 100 * 1024 * 1024 (100 MiB), the payload cap. -/
def MAX_DECOMPRESSED_SIZE : Nat := 100 * 1024 * 1024

/-- JSON values, as produced by json.loads and consumed by json.dumps.
Floats are not modelled: the metadata the codec handles holds ints,
strings, booleans, arrays and objects. -/
inductive JVal where
  | null
  | bool (b : Bool)
  | int (n : Int)
  | str (s : String)
  | arr (xs : List JVal)
  | obj (kvs : List (String × JVal))

/-- Python dict lookup `m.get(k)`: `none` when the key is absent. -/
def getKey (m : List (String × JVal)) (k : String) : Option JVal :=
  match m with
  | [] => none
  | (k', v) :: rest => if k' = k then some v else getKey rest k

/-- Python `m.setdefault(k, v)`: keep the dict unchanged when the key is
present (even when it maps to null), otherwise append the pair. -/
def setdefault (m : List (String × JVal)) (k : String) (v : JVal) : List (String × JVal) :=
  if (getKey m k).isSome then m else m ++ [(k, v)]

/-- Python truthiness of a JSON value: None, False, 0, empty string,
empty list and empty dict are falsy, everything else truthy. -/
def truthy : JVal → Bool
  | .null => false
  | .bool b => b
  | .int n => decide (n ≠ 0)
  | .str s => !s.isEmpty
  | .arr xs => !xs.isEmpty
  | .obj kvs => !kvs.isEmpty

/-- Truthiness of the result of `m.get(k)` (absent key gives None, falsy). -/
def truthyOpt : Option JVal → Bool
  | none => false
  | some v => truthy v

/-- Opening brace character (written by code point to keep JSON text out of
string literals). -/
def lbrace : Char := Char.ofNat 123

/-- Closing brace character. -/
def rbrace : Char := Char.ofNat 125

/-- UTF-8 encoding of a single character (1 to 4 bytes). -/
def utf8EncodeChar (c : Char) : Bytes :=
  let n := c.toNat
  if n < 128 then [n]
  else if n < 2048 then [192 + n / 64, 128 + n % 64]
  else if n < 65536 then [224 + n / 4096, 128 + n / 64 % 64, 128 + n % 64]
  else [240 + n / 262144, 128 + n / 4096 % 64, 128 + n / 64 % 64, 128 + n % 64]

/-- UTF-8 encoding of a character list. -/
def bytesOfChars (cs : List Char) : Bytes :=
  (cs.map utf8EncodeChar).flatten

/-- Python `s.encode(utf-8)`. -/
def strToBytes (s : String) : Bytes := bytesOfChars s.data

/-- Lowercase hexadecimal digit. -/
def hexDigit (n : Nat) : Char :=
  if n < 10 then Char.ofNat (48 + n) else Char.ofNat (87 + n)

/-- Escaping of one character inside a JSON string literal, as json.dumps
with ensure_ascii=False does it: quote, backslash and control characters
are escaped, everything else is kept verbatim. -/
def escapeChar (c : Char) : List Char :=
  if c = '"' then ['\\', '"']
  else if c = '\\' then ['\\', '\\']
  else if c = '\n' then ['\\', 'n']
  else if c = '\t' then ['\\', 't']
  else if c = '\r' then ['\\', 'r']
  else if c = Char.ofNat 8 then ['\\', 'b']
  else if c = Char.ofNat 12 then ['\\', 'f']
  else if c.toNat < 32 then
    ['\\', 'u', '0', '0', hexDigit (c.toNat / 16), hexDigit (c.toNat % 16)]
  else [c]

/-- JSON string literal for a string value. -/
def dumpStr (s : String) : List Char :=
  '"' :: ((s.data.map escapeChar).flatten ++ ['"'])

mutual

/-- json.dumps of a value (ensure_ascii=False, default separators). -/
def dumpVal : JVal → List Char
  | .null => "null".data
  | .bool true => "true".data
  | .bool false => "false".data
  | .int n => (toString n).data
  | .str s => dumpStr s
  | .arr xs => '[' :: (dumpArr xs ++ [']'])
  | .obj kvs => lbrace :: (dumpObj kvs ++ [rbrace])

/-- Comma-separated dump of array elements. -/
def dumpArr : List JVal → List Char
  | [] => []
  | [x] => dumpVal x
  | x :: y :: rest => dumpVal x ++ [',', ' '] ++ dumpArr (y :: rest)

/-- Comma-separated dump of object entries, each one key, colon, space,
value. -/
def dumpObj : List (String × JVal) → List Char
  | [] => []
  | [(k, v)] => dumpStr k ++ [':', ' '] ++ dumpVal v
  | (k, v) :: e :: rest =>
      dumpStr k ++ [':', ' '] ++ dumpVal v ++ [',', ' '] ++ dumpObj (e :: rest)

end

/-- json.dumps of a metadata dict. -/
def jsonDumps (m : List (String × JVal)) : List Char := dumpVal (.obj m)

/-- Whitespace as skipped by the JSON grammar. -/
def isJsonWs (c : Char) : Bool :=
  c = ' ' || c = '\t' || c = '\n' || c = '\r'

/-- Skip leading JSON whitespace. -/
def skipWs : List Char → List Char
  | [] => []
  | c :: rest => if isJsonWs c then skipWs rest else c :: rest

/-- Value of a hexadecimal digit character. -/
def hexVal (c : Char) : Option Nat :=
  let n := c.toNat
  if 48 ≤ n ∧ n ≤ 57 then some (n - 48)
  else if 97 ≤ n ∧ n ≤ 102 then some (n - 97 + 10)
  else if 65 ≤ n ∧ n ≤ 70 then some (n - 65 + 10)
  else none

/-- Value of a decimal digit character. -/
def digitVal (c : Char) : Option Nat :=
  if 48 ≤ c.toNat ∧ c.toNat ≤ 57 then some (c.toNat - 48) else none

/-- Collect a maximal run of leading decimal digits. -/
def takeDigits : List Char → List Nat × List Char
  | [] => ([], [])
  | c :: rest =>
    match digitVal c with
    | some d => let p := takeDigits rest; (d :: p.1, p.2)
    | none => ([], c :: rest)

/-- Natural number denoted by a digit run. -/
def digitsToNat (ds : List Nat) : Nat := ds.foldl (fun a d => a * 10 + d) 0

/-- Body of a JSON string literal after the opening quote, with escape
processing; returns the decoded string and the input after the closing
quote. -/
def parseJStringAux (acc : List Char) : List Char → Except String (String × List Char)
  | [] => .error "Unterminated string"
  | c :: rest =>
    if c = '"' then .ok (String.mk acc.reverse, rest)
    else if c = '\\' then
      match rest with
      | [] => .error "Unterminated string"
      | e :: rest2 =>
        if e = '"' then parseJStringAux ('"' :: acc) rest2
        else if e = '\\' then parseJStringAux ('\\' :: acc) rest2
        else if e = '/' then parseJStringAux ('/' :: acc) rest2
        else if e = 'n' then parseJStringAux ('\n' :: acc) rest2
        else if e = 't' then parseJStringAux ('\t' :: acc) rest2
        else if e = 'r' then parseJStringAux ('\r' :: acc) rest2
        else if e = 'b' then parseJStringAux (Char.ofNat 8 :: acc) rest2
        else if e = 'f' then parseJStringAux (Char.ofNat 12 :: acc) rest2
        else if e = 'u' then
          match rest2 with
          | h1 :: h2 :: h3 :: h4 :: rest3 =>
            match hexVal h1, hexVal h2, hexVal h3, hexVal h4 with
            | some a, some b, some c2, some d =>
              let n := ((a * 16 + b) * 16 + c2) * 16 + d
              if 55296 ≤ n ∧ n < 57344 then .error "Surrogate escape unsupported"
              else parseJStringAux (Char.ofNat n :: acc) rest3
            | _, _, _, _ => .error "Invalid unicode escape"
          | _ => .error "Invalid unicode escape"
        else .error "Invalid escape"
    else if c.toNat < 32 then .error "Invalid control character"
    else parseJStringAux (c :: acc) rest

/-- Python dict insertion: replace the value in place when the key exists,
append otherwise. -/
def objInsert (m : List (String × JVal)) (k : String) (v : JVal) : List (String × JVal) :=
  match m with
  | [] => [(k, v)]
  | (k', v') :: rest => if k' = k then (k', v) :: rest else (k', v') :: objInsert rest k v

/-- Recognize one of the three JSON keyword literals at the head of the
input, giving the corresponding value and the remaining characters. -/
def keywordVal (cs : List Char) : Option (JVal × List Char) :=
  if cs.take 4 = "null".data then some (.null, cs.drop 4)
  else if cs.take 4 = "true".data then some (.bool true, cs.drop 4)
  else if cs.take 5 = "false".data then some (.bool false, cs.drop 5)
  else none

mutual

/-- Recursive-descent JSON value parser (fuelled; fuel bounded by the
input length is always enough since every recursive step consumes input).
Floats are rejected, which is faithful enough for container metadata. -/
def parseVal : Nat → List Char → Except String (JVal × List Char)
  | 0, _ => .error "Out of fuel"
  | fuel + 1, cs =>
    match keywordVal cs with
    | some (v, r) => .ok (v, r)
    | none =>
    match cs with
    | [] => .error "Expecting value"
    | c :: rest =>
      if c = '"' then
        match parseJStringAux [] rest with
        | .error e => .error e
        | .ok (s, r) => .ok (.str s, r)
      else if c = lbrace then
        match skipWs rest with
        | d :: rest2 =>
          if d = rbrace then .ok (.obj [], rest2)
          else parseObjItems fuel [] (d :: rest2)
        | [] => .error "Expecting property name"
      else if c = '[' then
        match skipWs rest with
        | d :: rest2 =>
          if d = ']' then .ok (.arr [], rest2)
          else parseArrItems fuel [] (d :: rest2)
        | [] => .error "Expecting value"
      else if c = '-' then
        match takeDigits rest with
        | ([], _) => .error "Expecting value"
        | (ds, r) =>
          match r with
          | x :: _ =>
            if x = '.' ∨ x = 'e' ∨ x = 'E' then .error "Floats not modelled"
            else .ok (.int (-(digitsToNat ds : Int)), r)
          | [] => .ok (.int (-(digitsToNat ds : Int)), r)
      else
        match digitVal c with
        | some _ =>
          match takeDigits (c :: rest) with
          | (ds, r) =>
            match r with
            | x :: _ =>
              if x = '.' ∨ x = 'e' ∨ x = 'E' then .error "Floats not modelled"
              else .ok (.int (digitsToNat ds : Int), r)
            | [] => .ok (.int (digitsToNat ds : Int), r)
        | none => .error "Expecting value"

/-- Array items after the opening bracket (first item not yet consumed). -/
def parseArrItems : Nat → List JVal → List Char → Except String (JVal × List Char)
  | 0, _, _ => .error "Out of fuel"
  | fuel + 1, acc, cs =>
    match parseVal fuel (skipWs cs) with
    | .error e => .error e
    | .ok (v, rest) =>
      match skipWs rest with
      | c :: rest2 =>
        if c = ',' then parseArrItems fuel (v :: acc) rest2
        else if c = ']' then .ok (.arr (v :: acc).reverse, rest2)
        else .error "Expecting delimiter"
      | [] => .error "Expecting delimiter"

/-- Object entries after the opening brace (first key not yet consumed).
Duplicate keys behave like repeated dict insertion: the last value wins. -/
def parseObjItems : Nat → List (String × JVal) → List Char → Except String (JVal × List Char)
  | 0, _, _ => .error "Out of fuel"
  | fuel + 1, acc, cs =>
    match skipWs cs with
    | [] => .error "Expecting property name"
    | c :: rest =>
      if c = '"' then
        match parseJStringAux [] rest with
        | .error e => .error e
        | .ok (k, rest1) =>
          match skipWs rest1 with
          | d :: rest2 =>
            if d = ':' then
              match parseVal fuel (skipWs rest2) with
              | .error e => .error e
              | .ok (v, rest3) =>
                match skipWs rest3 with
                | e :: rest4 =>
                  if e = ',' then parseObjItems fuel (objInsert acc k v) rest4
                  else if e = rbrace then .ok (.obj (objInsert acc k v), rest4)
                  else .error "Expecting delimiter"
                | [] => .error "Expecting delimiter"
            else .error "Expecting colon"
          | [] => .error "Expecting colon"
      else .error "Expecting property name"

end

/-- Whether one byte is a UTF-8 continuation byte. -/
def isCont (b : Nat) : Bool := 128 ≤ b && b < 192

/-- Strict UTF-8 decoding (fuelled; fuel bounded by the byte count is
always enough). Rejects overlong forms, surrogates and out-of-range
code points, as the strict utf-8 codec of Python does. -/
def utf8DecodeAux : Nat → Bytes → Option (List Char)
  | _, [] => some []
  | 0, _ :: _ => none
  | fuel + 1, b :: rest =>
    if b < 128 then (utf8DecodeAux fuel rest).map (fun cs => Char.ofNat b :: cs)
    else if b < 194 then none
    else if b < 224 then
      match rest with
      | b2 :: rest2 =>
        if isCont b2 then
          (utf8DecodeAux fuel rest2).map
            (fun cs => Char.ofNat ((b - 192) * 64 + (b2 - 128)) :: cs)
        else none
      | [] => none
    else if b < 240 then
      match rest with
      | b2 :: b3 :: rest2 =>
        if isCont b2 && isCont b3 then
          let n := (b - 224) * 4096 + (b2 - 128) * 64 + (b3 - 128)
          if n < 2048 ∨ (55296 ≤ n ∧ n < 57344) then none
          else (utf8DecodeAux fuel rest2).map (fun cs => Char.ofNat n :: cs)
        else none
      | _ => none
    else if b < 245 then
      match rest with
      | b2 :: b3 :: b4 :: rest2 =>
        if isCont b2 && isCont b3 && isCont b4 then
          let n := (b - 240) * 262144 + (b2 - 128) * 4096 + (b3 - 128) * 64 + (b4 - 128)
          if n < 65536 ∨ 1114112 ≤ n then none
          else (utf8DecodeAux fuel rest2).map (fun cs => Char.ofNat n :: cs)
        else none
      | _ => none
    else none

/-- Python `bytes.decode(utf-8)`. -/
def utf8Decode (b : Bytes) : Option (List Char) := utf8DecodeAux b.length b

/-- Model of `json.loads` applied to the decoded metadata bytes: UTF-8
decode, parse one value, and require that only whitespace remains. -/
def parseBytes (b : Bytes) : Except String JVal :=
  match utf8Decode b with
  | none => .error "UnicodeDecodeError"
  | some cs =>
    match parseVal (cs.length + 1) (skipWs cs) with
    | .error e => .error e
    | .ok (v, rest) =>
      match skipWs rest with
      | [] => .ok v
      | _ :: _ => .error "Extra data"

/-- Base64 value of one character of the url-safe alphabet. -/
def b64Val (c : Char) : Option Nat :=
  let n := c.toNat
  if 65 ≤ n ∧ n ≤ 90 then some (n - 65)
  else if 97 ≤ n ∧ n ≤ 122 then some (n - 97 + 26)
  else if 48 ≤ n ∧ n ≤ 57 then some (n - 48 + 52)
  else if c = '-' then some 62
  else if c = '_' then some 63
  else none

/-- Decode base64 in groups of four characters; padding (at the very end
only) shortens the final group. -/
def b64DecodeQuads : List Char → Option Bytes
  | [] => some []
  | a :: b :: c :: d :: rest =>
    match b64Val a, b64Val b with
    | some va, some vb =>
      if c = '=' then
        if d = '=' && rest.isEmpty then some [va * 4 + vb / 16]
        else none
      else
        match b64Val c with
        | some vc =>
          if d = '=' then
            if rest.isEmpty then some [va * 4 + vb / 16, vb % 16 * 16 + vc / 4]
            else none
          else
            match b64Val d with
            | some vd =>
              (b64DecodeQuads rest).map
                (fun bs => (va * 4 + vb / 16) :: (vb % 16 * 16 + vc / 4) :: (vc % 4 * 64 + vd) :: bs)
            | none => none
        | none => none
    | _, _ => none
  | _ => none

/-- Model of `base64.urlsafe_b64decode` with default validation: characters
outside the alphabet are discarded, then the length must be a multiple of
four (else binascii.Error, modelled as `none`). -/
def b64decode (s : String) : Option Bytes :=
  let cs := s.data.filter (fun c => (b64Val c).isSome || c = '=')
  if cs.length % 4 = 0 then b64DecodeQuads cs else none

/-- Big-endian 4-byte encoding, `struct.pack` with format !I. -/
def u32be (n : Nat) : Bytes :=
  [n / 16777216 % 256, n / 65536 % 256, n / 256 % 256, n % 256]

/-- Big-endian integer value of a byte string, `struct.unpack` with
format !I applied to a 4-byte read. -/
def beU32 (l : Bytes) : Nat := l.foldl (fun acc b => acc * 256 + b) 0

/-- Failure outcomes of `read_lamo` (src/conversor.py lines 109-167).
The first group are the explicit `raise ValueError` sites of the code;
the second group are exceptions escaping from library calls on malformed
input (struct.unpack on a short read, the UTF-8 or JSON decoder, the
`get`/`encode` attribute accesses, base64 padding validation, PIL). -/
inductive LamoError where
  | badMagic
  | badVersion (v : Nat)
  | metaSizeExceeded (n : Nat)
  | dataSizeExceeded (n : Nat)
  | passwordRequired
  | decryptFailed (msg : String)
  | compressionBomb
  | structError
  | parseError (msg : String)
  | attrError (msg : String)
  | base64Error
  | imageError
  deriving Repr, DecidableEq

/-- Whether a `read_lamo` failure is one of the typed ValueError raises
written by the codec itself; the remaining constructors model untyped
exceptions leaking from library primitives. -/
def isTypedValueError : LamoError → Bool
  | .badMagic | .badVersion _ | .metaSizeExceeded _ | .dataSizeExceeded _
  | .passwordRequired | .decryptFailed _ | .compressionBomb => true
  | .structError | .parseError _ | .attrError _ | .base64Error | .imageError => false

/-- External collaborators consumed by `read_lamo`: the JSON codec of the
standard library, the password dialog, Fernet decryption, the zlib
streaming decompressor and PIL image loading. The zlib decompressobj fed
the payload in 1024-byte chunks is abstracted by the list of per-chunk
outputs `outs` and the final `flush` result; real zlib, called without
max_length as the code does, buffers no output so its flush is empty. -/
structure Collab where
  /-- json.loads composed with utf-8 decoding of the metadata bytes. -/
  parse : Bytes → Except String JVal
  /-- Reply of simpledialog.askstring: `none` models a cancelled dialog. -/
  password : Option String
  /-- decrypt_data payload password salt (conversor.py lines 47-50,
  PBKDF2 key derivation followed by Fernet.decrypt). `none` models the
  failure outcome: on every failure path alike — wrong password, tampered
  ciphertext, structurally invalid token — the cryptography library
  raises the bare InvalidToken exception, which carries no message. -/
  decrypt : Bytes → String → Bytes → Option Bytes
  /-- Outputs of dobj.decompress for the successive 1024-byte chunks of a
  given compressed input. -/
  outs : Bytes → List Bytes
  /-- Result of dobj.flush() after all chunks of a given input were fed. -/
  flush : Bytes → Bytes
  /-- Whether PIL Image.open + load succeeds on the inner PNG bytes. -/
  imgOk : Bytes → Bool

/-- The chunked decompression loop of read_lamo (lines 147-159): append
each chunk output to the running buffer, fail with the compression-bomb
ValueError as soon as the running length exceeds MAX_DECOMPRESSED_SIZE,
and append the flush tail after the loop. -/
def decompressSafe (acc : Bytes) (outs : List Bytes) (tl : Bytes) : Except LamoError Bytes :=
  match outs with
  | [] => .ok (acc ++ tl)
  | o :: os =>
    let acc' := acc ++ o
    if acc'.length > MAX_DECOMPRESSED_SIZE then .error .compressionBomb
    else decompressSafe acc' os tl

/-- Message prefix of the ValueError raised when decryption fails
(line 144); the code appends str(e) of the underlying exception. -/
def decryptFailMsg : String := "Falha na descriptografia. Senha incorreta ou arquivo corrompido: "

/-- str(e) of the exception decrypt_data can raise: Fernet.decrypt
raises InvalidToken bare on every failure path, so its str() is the
empty string, and the f-string of line 144 appends nothing. -/
def invalidTokenText : String := ""

/-- Final stage of read_lamo: chunked decompression of the (possibly
decrypted) payload followed by PIL loading of the inner PNG bytes. -/
def finishRead (C : Collab) (m : List (String × JVal)) (compressed : Bytes) :
    Except LamoError (Bytes × List (String × JVal)) :=
  match decompressSafe [] (C.outs compressed) (C.flush compressed) with
  | .error e => .error e
  | .ok png => if C.imgOk png then .ok (png, m) else .error .imageError

/-- Decryption branch and final stage of read_lamo (lines 133-167), after
the frame fields were read and the metadata JSON parsed to `mv`. When the
value under the key encrypted is truthy the password dialog is consulted:
a cancelled or empty reply raises the password-required ValueError; then
`metadata.get("salt").encode` raises AttributeError when the salt is
missing or not a string, its base64 decoding can raise binascii.Error,
and a decryption failure is wrapped in a ValueError whose text appends
str(e) — always the empty str() of the bare InvalidToken. A non-dict
metadata value makes `metadata.get` itself raise AttributeError. -/
def readPayloadStage (C : Collab) (mv : JVal) (compressed : Bytes) :
    Except LamoError (Bytes × List (String × JVal)) :=
  match mv with
  | .obj m =>
    if truthyOpt (getKey m "encrypted") then
      match C.password with
      | none => .error .passwordRequired
      | some pw =>
        if pw.isEmpty then .error .passwordRequired
        else
          match getKey m "salt" with
          | some (.str s) =>
            match b64decode s with
            | none => .error .base64Error
            | some salt =>
              match C.decrypt compressed pw salt with
              | none => .error (.decryptFailed (decryptFailMsg ++ invalidTokenText))
              | some dec => finishRead C m dec
          | _ => .error (.attrError "encode")
    else finishRead C m compressed
  | _ => .error (.attrError "get")

/-- read_lamo of src/conversor.py lines 109-167 (the same function is
repeated in src/LamoViewer.py lines 49-104), over the whole file contents.
Python file reads return at most the requested count, so every `f.read(k)`
is a take/drop pair; struct.unpack raises struct.error when its read came
back short. The declared-length cap checks sit between reading the length
field and reading the corresponding region, exactly as in the source. -/
def read_lamo (C : Collab) (file : Bytes) : Except LamoError (Bytes × List (String × JVal)) :=
  if file.take 4 ≠ MAGIC then .error .badMagic
  else
    let r1 := file.drop 4
    if r1.length < 1 then .error .structError
    else if r1.headD 0 ≠ VERSION then .error (.badVersion (r1.headD 0))
    else
      let r2 := r1.drop 1
      if r2.length < 4 then .error .structError
      else
        let metaLen := beU32 (r2.take 4)
        let r3 := r2.drop 4
        if metaLen > MAX_META_SIZE then .error (.metaSizeExceeded metaLen)
        else
          match C.parse (r3.take metaLen) with
          | .error e => .error (.parseError e)
          | .ok mv =>
            let r4 := r3.drop metaLen
            if r4.length < 4 then .error .structError
            else
              let dataLen := beU32 (r4.take 4)
              let r5 := r4.drop 4
              if dataLen > MAX_DECOMPRESSED_SIZE then .error (.dataSizeExceeded dataLen)
              else readPayloadStage C mv (r5.take dataLen)

/-- Failure outcomes of `write_lamo`. `unboundLocalMeta` models the
UnboundLocalError raised at line 84: in the password branch the code
calls `meta.setdefault` although the local `meta` is only assigned at
line 87; `metaTooBig` is the ValueError of line 99; `packOverflow`
models struct.error when a length does not fit the !I format. -/
inductive WriteError where
  | unboundLocalMeta
  | metaTooBig (n : Nat)
  | packOverflow
  deriving Repr, DecidableEq

/-- The inputs write_lamo reads off a PIL image: dimensions, pixel mode,
the format attribute (possibly None), and the PNG serialization produced
by image_to_png_bytes. -/
structure ImgModel where
  width : Nat
  height : Nat
  mode : String
  format : Option String
  png : Bytes

/-- Value `getattr(img, "format", "PNG") or "PNG"` used for the
inner_format default: the format attribute when it is a non-empty
string, else the literal PNG. -/
def innerFormat (img : ImgModel) : String :=
  match img.format with
  | some s => if s.isEmpty then "PNG" else s
  | none => "PNG"

/-- The metadata defaulting block of write_lamo (lines 87-93): copy the
caller metadata (an absent or empty mapping becomes the empty dict) and
setdefault the five derived keys in order. -/
def finalMeta (img : ImgModel) (metadata : Option (List (String × JVal))) (zlib_level : Nat) :
    List (String × JVal) :=
  let m0 := metadata.getD []
  let m1 := setdefault m0 "width" (.int img.width)
  let m2 := setdefault m1 "height" (.int img.height)
  let m3 := setdefault m2 "mode" (.str img.mode)
  let m4 := setdefault m3 "inner_format" (.str (innerFormat img))
  setdefault m4 "zlib_level" (.int zlib_level)

/-- Python truthiness of the password argument (None and the empty
string are falsy). -/
def passTruthy : Option String → Bool
  | none => false
  | some s => !s.isEmpty

/-- write_lamo of src/conversor.py lines 74-107, returning the bytes the
file ends up holding. zlib.compress is an external collaborator passed as
`compress`. The password branch is translated faithfully to the source:
it reaches `meta.setdefault` before the local `meta` exists, so every
write with a truthy password stops with UnboundLocalError before
touching the output file. -/
def write_lamo (compress : Bytes → Bytes) (img : ImgModel)
    (metadata : Option (List (String × JVal))) (password : Option String)
    (zlib_level : Nat) : Except WriteError Bytes :=
  let compressed := compress img.png
  if passTruthy password then .error .unboundLocalMeta
  else
    let meta := finalMeta img metadata zlib_level
    let meta_json := bytesOfChars (jsonDumps meta)
    if meta_json.length > MAX_META_SIZE then .error (.metaTooBig meta_json.length)
    else if compressed.length ≥ 4294967296 then .error .packOverflow
    else .ok (MAGIC ++ [VERSION] ++ u32be meta_json.length ++ meta_json ++
              u32be compressed.length ++ compressed)

/-- Total length of a list of chunk outputs: the running decompressed
size after all of them were appended. -/
def sumLen (l : List Bytes) : Nat := (l.map List.length).sum

/-- The frame layout of a LAMO file whose declared lengths match the
regions that follow them. -/
def frameBytes (mb payload : Bytes) : Bytes :=
  MAGIC ++ [VERSION] ++ u32be mb.length ++ mb ++ u32be payload.length ++ payload

/-- A concrete collaborator assembly usable on closed inputs: the real
JSON parser model, a fixed password reply, a stub decryptor, a stub
decompressor that emits one chunk output equal to its input, and an
always-succeeding image loader. -/
def mkCollab (pw : Option String) (dec : Bytes → String → Bytes → Option Bytes) : Collab :=
  { parse := parseBytes
    password := pw
    decrypt := dec
    outs := fun c => [c]
    flush := fun _ => []
    imgOk := fun _ => true }

/-- A small concrete image for witnesses. -/
def imgW : ImgModel := { width := 10, height := 20, mode := "RGB", format := some "PNG", png := [1, 2, 3] }

/-- Stub decryptor that fails on every input, as Fernet does with a bare
InvalidToken for a wrong password. -/
def decFail1 : Bytes → String → Bytes → Option Bytes := fun _ _ _ => none

/-- Stub decryptor with a different failure profile (it would succeed on
an empty payload but fails on the concrete ones used here, like a
tampered-ciphertext failure): a different underlying reason producing
the same bare InvalidToken. -/
def decFail2 : Bytes → String → Bytes → Option Bytes :=
  fun c _ _ => if c.isEmpty then some c else none

/-- Concrete collaborators with a supplied password and a failing
decryptor. -/
def CW : Collab := mkCollab (some "x") decFail1

/-- Same collaborators with the other failing decryptor. -/
def CW2 : Collab := mkCollab (some "x") decFail2

/-- Concrete collaborators with a cancelled password dialog. -/
def CNone : Collab := mkCollab none decFail1

/-- Metadata of an encrypted file whose salt decodes to the empty byte
string (the empty string is accepted by urlsafe_b64decode). -/
def mEnc : List (String × JVal) := [("encrypted", .bool true), ("salt", .str "")]

/-- Concrete encrypted file with metadata `mEnc` and a 1-byte payload. -/
def fileEnc : Bytes := frameBytes (bytesOfChars (jsonDumps mEnc)) [0]

/-- Metadata marked encrypted but carrying no salt key. -/
def mNoSalt : List (String × JVal) := [("encrypted", .bool true)]

/-- Concrete file with metadata `mNoSalt` and a 1-byte payload. -/
def fileNoSalt : Bytes := frameBytes (bytesOfChars (jsonDumps mNoSalt)) [0]

/-- A truncated file: the header declares 5 metadata bytes but only the
two bytes of the text ab remain. -/
def truncFile : Bytes := MAGIC ++ [VERSION] ++ u32be 5 ++ strToBytes "ab"

end Lamo

namespace Lamo

/-! Helper lemmas shared by several claims. -/

theorem beU32_u32be (n : Nat) (h : n < 4294967296) : beU32 (u32be n) = n := by
  simp [beU32, u32be]
  omega

theorem flatten_length_sumLen (outs : List Bytes) : outs.flatten.length = sumLen outs := by
  simp [sumLen, List.length_flatten]

theorem read_lamo_frame (C : Collab) (mb payload : Bytes)
    (hm : mb.length ≤ MAX_META_SIZE) (hp : payload.length ≤ MAX_DECOMPRESSED_SIZE) :
    read_lamo C (frameBytes mb payload) =
      match C.parse mb with
      | .error e => .error (.parseError e)
      | .ok mv => readPayloadStage C mv payload := by
  have hm' : mb.length ≤ 1048576 := by simpa [MAX_META_SIZE] using hm
  have hp' : payload.length ≤ 104857600 := by simpa [MAX_DECOMPRESSED_SIZE] using hp
  have h4m : (u32be mb.length).length = 4 := rfl
  have h4p : (u32be payload.length).length = 4 := rfl
  unfold frameBytes read_lamo
  simp only [List.append_assoc]
  rw [List.take_left' (show (MAGIC).length = 4 from rfl),
      List.drop_left' (show (MAGIC).length = 4 from rfl)]
  simp only [ne_eq, not_true_eq_false, if_false, VERSION, List.singleton_append,
    List.length_cons, List.headD_cons, List.drop_one, List.tail_cons,
    eq_self_iff_true]
  rw [if_neg (show ¬((u32be mb.length ++ (mb ++ (u32be payload.length ++ payload))).length + 1 < 1)
        by omega)]
  rw [if_neg (show ¬((u32be mb.length ++ (mb ++ (u32be payload.length ++ payload))).length < 4)
        by rw [List.length_append, h4m]; omega)]
  rw [List.take_left' h4m, List.drop_left' h4m, beU32_u32be _ (by omega)]
  rw [if_neg (show ¬(mb.length > MAX_META_SIZE)
        by simp only [MAX_META_SIZE, gt_iff_lt, not_lt]; omega)]
  rw [List.take_left]
  cases hC : C.parse mb with
  | error e => rfl
  | ok mv =>
    dsimp only
    rw [List.drop_left]
    rw [if_neg (show ¬((u32be payload.length ++ payload).length < 4)
          by rw [List.length_append, h4p]; omega)]
    rw [List.take_left' h4p, List.drop_left' h4p, beU32_u32be _ (by omega)]
    rw [if_neg (show ¬(payload.length > MAX_DECOMPRESSED_SIZE)
          by simp only [MAX_DECOMPRESSED_SIZE, gt_iff_lt, not_lt]; omega)]
    rw [List.take_length]

theorem decompressSafe_bomb (outs : List Bytes) :
    ∀ (acc : Bytes) (rest : List Bytes) (tl : Bytes),
      acc.length ≤ MAX_DECOMPRESSED_SIZE →
      acc.length + sumLen outs > MAX_DECOMPRESSED_SIZE →
      decompressSafe acc (outs ++ rest) tl = .error .compressionBomb := by
  induction outs with
  | nil =>
    intro acc rest tl h1 h2
    exfalso
    simp [sumLen] at h2
    omega
  | cons o os ih =>
    intro acc rest tl h1 h2
    have hsum : sumLen (o :: os) = o.length + sumLen os := by simp [sumLen]
    have hlen : (acc ++ o).length = acc.length + o.length := List.length_append acc o
    simp only [List.cons_append, decompressSafe]
    by_cases hc : (acc ++ o).length > MAX_DECOMPRESSED_SIZE
    · rw [if_pos hc]
    · rw [if_neg hc]
      exact ih (acc ++ o) rest tl (by omega) (by omega)

theorem decompressSafe_ok_inv (outs : List Bytes) :
    ∀ (acc tl r : Bytes),
      acc.length ≤ MAX_DECOMPRESSED_SIZE →
      decompressSafe acc outs tl = .ok r →
      r = acc ++ outs.flatten ++ tl ∧ (acc ++ outs.flatten).length ≤ MAX_DECOMPRESSED_SIZE := by
  induction outs with
  | nil =>
    intro acc tl r h1 h2
    simp only [decompressSafe, Except.ok.injEq] at h2
    subst h2
    simp [h1]
  | cons o os ih =>
    intro acc tl r h1 h2
    have hlen : (acc ++ o).length = acc.length + o.length := List.length_append acc o
    simp only [decompressSafe] at h2
    by_cases hc : (acc ++ o).length > MAX_DECOMPRESSED_SIZE
    · rw [if_pos hc] at h2
      exact absurd h2 (by simp)
    · rw [if_neg hc] at h2
      obtain ⟨hr, hl⟩ := ih (acc ++ o) tl r (by omega) h2
      constructor
      · rw [hr]; simp [List.append_assoc]
      · simpa [List.append_assoc] using hl

theorem decompressSafe_ok_of_le (outs : List Bytes) :
    ∀ (acc tl : Bytes),
      (acc ++ outs.flatten).length ≤ MAX_DECOMPRESSED_SIZE →
      decompressSafe acc outs tl = .ok (acc ++ outs.flatten ++ tl) := by
  induction outs with
  | nil =>
    intro acc tl _
    simp [decompressSafe]
  | cons o os ih =>
    intro acc tl h
    have hlen : (acc ++ (o :: os).flatten).length =
        acc.length + o.length + (os.flatten).length := by
      simp [List.flatten_cons]
      omega
    simp only [decompressSafe]
    rw [if_neg (show ¬((acc ++ o).length > MAX_DECOMPRESSED_SIZE) by
      have := List.length_append acc o
      omega)]
    have := ih (acc ++ o) tl (by
      have h2 : ((acc ++ o) ++ os.flatten).length =
          acc.length + o.length + (os.flatten).length := by simp; omega
      omega)
    rw [this]
    simp [List.append_assoc]

/-! Claim theorems. -/

/-- C1: the claim states that for every image, metadata and non-empty
password, write_lamo succeeds and the file round-trips through read_lamo.
In the source the password branch (lines 81-85) calls `meta.setdefault`
although the local `meta` is only assigned at line 87, so every write
with a truthy password raises UnboundLocalError before anything is
written; the claim can never hold. The spec itself flags this
use-before-assignment as a defect of the code. -/
theorem write_with_password_fails (compress : Bytes → Bytes) (img : ImgModel)
    (metadata : Option (List (String × JVal))) (p : String) (lvl : Nat) (hp : p ≠ "") :
    write_lamo compress img metadata (some p) lvl = .error .unboundLocalMeta := by
  unfold write_lamo
  have h1 : ¬p.isEmpty = true := fun h => hp ((String.isEmpty_iff p).mp h)
  rw [if_pos (show passTruthy (some p) = true by
    simp [passTruthy]
    simpa using h1)]

/-- Witness: a concrete write with password x stops with the
UnboundLocalError outcome. -/
theorem write_with_password_fails_witness :
    ("x" : String) ≠ "" ∧
    write_lamo id imgW (some [("width", .int 999)]) (some "x") 9 = .error .unboundLocalMeta :=
  ⟨by decide, write_with_password_fails id imgW (some [("width", .int 999)]) "x" 9 (by decide)⟩

/-- C3: when the chunk outputs of the streaming decompressor sum to more
than MAX_DECOMPRESSED_SIZE, the loop of read_lamo returns the
compression-bomb error; moreover it does so as soon as a prefix of the
chunk outputs crosses the cap, whatever chunk outputs or flush tail would
follow, so decompression is never finished and the full expanded output
is never materialized. -/
theorem bomb_aborts_before_full_output (outs : List Bytes) (tl : Bytes)
    (h : sumLen outs > MAX_DECOMPRESSED_SIZE) :
    decompressSafe [] outs tl = .error .compressionBomb ∧
    ∀ (k : Nat) (rest : List Bytes) (tl₂ : Bytes),
      sumLen (List.take k outs) > MAX_DECOMPRESSED_SIZE →
      decompressSafe [] (List.take k outs ++ rest) tl₂ = .error .compressionBomb := by
  constructor
  · have h2 := decompressSafe_bomb outs [] [] tl (by simp) (by simpa using h)
    simpa using h2
  · intro k rest tl₂ hk
    exact decompressSafe_bomb (outs.take k) [] rest tl₂ (by simp) (by simpa using hk)

/-- Witness: one oversized chunk output triggers the bomb error. -/
theorem bomb_aborts_before_full_output_witness :
    sumLen [List.replicate 104857601 0] > MAX_DECOMPRESSED_SIZE ∧
    decompressSafe [] [List.replicate 104857601 0] [] = .error .compressionBomb := by
  have h : sumLen [List.replicate 104857601 0] > MAX_DECOMPRESSED_SIZE := by
    norm_num [sumLen, MAX_DECOMPRESSED_SIZE]
  exact ⟨h, (bomb_aborts_before_full_output [List.replicate 104857601 0] [] h).1⟩

/-- C7: on every successful decompression the returned buffer is at most
MAX_DECOMPRESSED_SIZE long (the flush tail after the loop is empty, since
the code calls dobj.decompress without max_length and real zlib then
buffers no output, so the first conjunct takes the empty tail); and every
stream whose total expanded size is within the cap decompresses fully,
the flush tail included, with no bytes lost. -/
theorem decompress_output_bounded_and_complete (outs : List Bytes) (tl : Bytes) :
    (∀ r : Bytes, decompressSafe [] outs [] = .ok r → r.length ≤ MAX_DECOMPRESSED_SIZE) ∧
    (sumLen outs ≤ MAX_DECOMPRESSED_SIZE →
      decompressSafe [] outs tl = .ok (outs.flatten ++ tl)) := by
  constructor
  · intro r hr
    obtain ⟨h1, h2⟩ := decompressSafe_ok_inv outs [] [] r (by simp) hr
    have : r = outs.flatten := by simpa using h1
    rw [this]
    simpa using h2
  · intro hle
    have h := decompressSafe_ok_of_le outs [] tl (by
      simpa [flatten_length_sumLen] using hle)
    simpa using h

/-- Witness: a bounded concrete stream decompresses fully and its output
is within the cap. -/
theorem decompress_output_bounded_and_complete_witness :
    ([1, 2, 3] : Bytes).length ≤ MAX_DECOMPRESSED_SIZE ∧
    decompressSafe [] [[1, 2], [3]] [4] = .ok [1, 2, 3, 4] := by
  constructor
  · exact (decompress_output_bounded_and_complete [[1, 2], [3]] []).1 [1, 2, 3] (by rfl)
  · have h := (decompress_output_bounded_and_complete [[1, 2], [3]] [4]).2 (by decide)
    simpa using h

/-- C2: the declared 4-byte big-endian length fields are checked against
the caps before the corresponding regions are read. A declared metaLen
above MAX_META_SIZE makes read_lamo fail with the metadata size error
whatever bytes (possibly none at all) follow the length field, and a
declared dataLen above MAX_DECOMPRESSED_SIZE likewise fails with the
payload size error for every continuation: the result never depends on
the oversized region, so no buffer of the declared length is read or
filled. -/
theorem cap_checks_on_declared_lengths (C : Collab) :
    (∀ (n : Nat) (rest : Bytes), n < 4294967296 → n > MAX_META_SIZE →
      read_lamo C (MAGIC ++ [VERSION] ++ u32be n ++ rest) = .error (.metaSizeExceeded n)) ∧
    (∀ (mb : Bytes) (mv : JVal) (d : Nat) (rest : Bytes),
      C.parse mb = .ok mv → mb.length ≤ MAX_META_SIZE → d < 4294967296 →
      d > MAX_DECOMPRESSED_SIZE →
      read_lamo C (MAGIC ++ [VERSION] ++ u32be mb.length ++ mb ++ u32be d ++ rest) =
        .error (.dataSizeExceeded d)) := by
  constructor
  · intro n rest h32 hcap
    unfold read_lamo
    simp only [List.append_assoc]
    rw [List.take_left' (show (MAGIC).length = 4 from rfl),
        List.drop_left' (show (MAGIC).length = 4 from rfl)]
    simp only [ne_eq, not_true_eq_false, if_false, VERSION, List.singleton_append,
      List.length_cons, List.headD_cons, List.drop_one, List.tail_cons,
      eq_self_iff_true]
    rw [if_neg (show ¬((u32be n ++ rest).length + 1 < 1) by omega)]
    rw [if_neg (show ¬((u32be n ++ rest).length < 4) by
      rw [List.length_append, (show (u32be n).length = 4 from rfl)]; omega)]
    rw [List.take_left' (show (u32be n).length = 4 from rfl), beU32_u32be _ h32]
    rw [if_pos hcap]
  · intro mb mv d rest hparse hm h32 hcap
    have hm' : mb.length ≤ 1048576 := by simpa [MAX_META_SIZE] using hm
    have h4m : (u32be mb.length).length = 4 := rfl
    have h4d : (u32be d).length = 4 := rfl
    unfold read_lamo
    simp only [List.append_assoc]
    rw [List.take_left' (show (MAGIC).length = 4 from rfl),
        List.drop_left' (show (MAGIC).length = 4 from rfl)]
    simp only [ne_eq, not_true_eq_false, if_false, VERSION, List.singleton_append,
      List.length_cons, List.headD_cons, List.drop_one, List.tail_cons,
      eq_self_iff_true]
    rw [if_neg (show ¬((u32be mb.length ++ (mb ++ (u32be d ++ rest))).length + 1 < 1) by omega)]
    rw [if_neg (show ¬((u32be mb.length ++ (mb ++ (u32be d ++ rest))).length < 4) by
      rw [List.length_append, h4m]; omega)]
    rw [List.take_left' h4m, List.drop_left' h4m, beU32_u32be _ (by omega)]
    rw [if_neg (show ¬(mb.length > MAX_META_SIZE)
          by simp only [MAX_META_SIZE, gt_iff_lt, not_lt]; omega)]
    rw [List.take_left, hparse]
    dsimp only
    rw [List.drop_left]
    rw [if_neg (show ¬((u32be d ++ rest).length < 4) by
      rw [List.length_append, h4d]; omega)]
    rw [List.take_left' h4d, beU32_u32be _ h32]
    rw [if_pos hcap]

/-- Witness: a declared metaLen of MAX_META_SIZE + 1 followed by nothing,
and a declared dataLen of MAX_DECOMPRESSED_SIZE + 1 after a two-byte
empty JSON object, both fail with the size errors on concrete inputs. -/
theorem cap_checks_on_declared_lengths_witness :
    read_lamo CW (MAGIC ++ [VERSION] ++ u32be 1048577 ++ []) =
      .error (.metaSizeExceeded 1048577) ∧
    read_lamo CW (MAGIC ++ [VERSION] ++ u32be (bytesOfChars (jsonDumps [])).length ++
        bytesOfChars (jsonDumps []) ++ u32be 104857601 ++ []) =
      .error (.dataSizeExceeded 104857601) := by
  constructor
  · exact (cap_checks_on_declared_lengths CW).1 1048577 [] (by decide) (by decide)
  · exact (cap_checks_on_declared_lengths CW).2 (bytesOfChars (jsonDumps []))
      (.obj []) 104857601 [] (by rfl) (by decide) (by decide) (by decide)

/-- C4 counterexample: the claim says a file in which fewer than the
declared metaLen bytes remain fails with a Truncated format error rather
than an error from parsing the short data. The code has no such error:
on a concrete file declaring 5 metadata bytes of which only the two
bytes of the text ab exist, read_lamo parses those two bytes as JSON and
surfaces the JSON parse failure. -/
theorem truncated_meta_is_parse_error :
    read_lamo CW truncFile = .error (.parseError "Expecting value") := by rfl

/-- C4 amended: read_lamo performs no short-read detection. When fewer
than the declared metaLen bytes remain, exactly the remaining bytes are
handed to the JSON parser and its failure is what surfaces; when fewer
than the declared dataLen bytes remain, the remaining bytes are processed
as the payload, identically to a file declaring their true length. No
Truncated error exists in the code. -/
theorem truncated_input_parses_short_data (C : Collab) :
    (∀ (mb : Bytes) (n : Nat) (e : String),
      mb.length < n → n ≤ MAX_META_SIZE → C.parse mb = .error e →
      read_lamo C (MAGIC ++ [VERSION] ++ u32be n ++ mb) = .error (.parseError e)) ∧
    (∀ (mb pb : Bytes) (d : Nat),
      mb.length ≤ MAX_META_SIZE → pb.length < d → d ≤ MAX_DECOMPRESSED_SIZE →
      read_lamo C (MAGIC ++ [VERSION] ++ u32be mb.length ++ mb ++ u32be d ++ pb) =
        read_lamo C (frameBytes mb pb)) := by
  constructor
  · intro mb n e hlt hn hparse
    have hn' : n ≤ 1048576 := by simpa [MAX_META_SIZE] using hn
    have h4n : (u32be n).length = 4 := rfl
    unfold read_lamo
    simp only [List.append_assoc]
    rw [List.take_left' (show (MAGIC).length = 4 from rfl),
        List.drop_left' (show (MAGIC).length = 4 from rfl)]
    simp only [ne_eq, not_true_eq_false, if_false, VERSION, List.singleton_append,
      List.length_cons, List.headD_cons, List.drop_one, List.tail_cons,
      eq_self_iff_true]
    rw [if_neg (show ¬((u32be n ++ mb).length + 1 < 1) by omega)]
    rw [if_neg (show ¬((u32be n ++ mb).length < 4) by
      rw [List.length_append, h4n]; omega)]
    rw [List.take_left' h4n, List.drop_left' h4n, beU32_u32be _ (by omega)]
    rw [if_neg (show ¬(n > MAX_META_SIZE)
          by simp only [MAX_META_SIZE, gt_iff_lt, not_lt]; omega)]
    rw [List.take_of_length_le (Nat.le_of_lt hlt), hparse]
  · intro mb pb d hm hlt hd
    have hm' : mb.length ≤ 1048576 := by simpa [MAX_META_SIZE] using hm
    have hd' : d ≤ 104857600 := by simpa [MAX_DECOMPRESSED_SIZE] using hd
    have h4m : (u32be mb.length).length = 4 := rfl
    have h4d : (u32be d).length = 4 := rfl
    rw [read_lamo_frame C mb pb hm (by omega)]
    unfold read_lamo
    simp only [List.append_assoc]
    rw [List.take_left' (show (MAGIC).length = 4 from rfl),
        List.drop_left' (show (MAGIC).length = 4 from rfl)]
    simp only [ne_eq, not_true_eq_false, if_false, VERSION, List.singleton_append,
      List.length_cons, List.headD_cons, List.drop_one, List.tail_cons,
      eq_self_iff_true]
    rw [if_neg (show ¬((u32be mb.length ++ (mb ++ (u32be d ++ pb))).length + 1 < 1) by omega)]
    rw [if_neg (show ¬((u32be mb.length ++ (mb ++ (u32be d ++ pb))).length < 4) by
      rw [List.length_append, h4m]; omega)]
    rw [List.take_left' h4m, List.drop_left' h4m, beU32_u32be _ (by omega)]
    rw [if_neg (show ¬(mb.length > MAX_META_SIZE)
          by simp only [MAX_META_SIZE, gt_iff_lt, not_lt]; omega)]
    rw [List.take_left]
    cases hC : C.parse mb with
    | error e => rfl
    | ok mv =>
      dsimp only
      rw [List.drop_left]
      rw [if_neg (show ¬((u32be d ++ pb).length < 4) by
        rw [List.length_append, h4d]; omega)]
      rw [List.take_left' h4d, List.drop_left' h4d, beU32_u32be _ (by omega)]
      rw [if_neg (show ¬(d > MAX_DECOMPRESSED_SIZE)
            by simp only [MAX_DECOMPRESSED_SIZE, gt_iff_lt, not_lt]; omega)]
      rw [List.take_of_length_le (Nat.le_of_lt hlt)]

/-- Witness: the amended behavior on the concrete truncated file and on a
concrete short payload. -/
theorem truncated_input_parses_short_data_witness :
    read_lamo CW (MAGIC ++ [VERSION] ++ u32be 5 ++ strToBytes "ab") =
      .error (.parseError "Expecting value") ∧
    read_lamo CW (MAGIC ++ [VERSION] ++ u32be (strToBytes "ab").length ++ strToBytes "ab" ++
        u32be 2 ++ [7]) = read_lamo CW (frameBytes (strToBytes "ab") [7]) := by
  constructor
  · exact (truncated_input_parses_short_data CW).1 (strToBytes "ab") 5
      "Expecting value" (by decide) (by decide) (by rfl)
  · exact (truncated_input_parses_short_data CW).2 (strToBytes "ab") [7] 2
      (by decide) (by decide) (by decide)

/-- C6 counterexample: the claim says every malformed input surfaces one
of the typed errors of the taxonomy. A file holding only the four magic
bytes makes struct.unpack fail on the empty version read: struct.error
is not one of the typed ValueError raises of the codec. -/
theorem short_header_untyped_error :
    read_lamo CW MAGIC = .error .structError ∧
    isTypedValueError .structError = false := ⟨by rfl, by rfl⟩

/-- C6 amended: read_lamo raises its own typed ValueError on the checks
it implements, but malformed input can also surface untyped library
exceptions; in particular every file that starts with the magic bytes
and ends before the version byte crashes struct.unpack, whatever the
collaborators do. -/
theorem short_header_struct_error (C : Collab) (file : Bytes)
    (h4 : file.take 4 = MAGIC) (hlen : file.length ≤ 4) :
    read_lamo C file = .error .structError ∧
    isTypedValueError .structError = false := by
  constructor
  · unfold read_lamo
    rw [if_neg (show ¬(file.take 4 ≠ MAGIC) by simp [h4])]
    rw [if_pos (show (file.drop 4).length < 1 by
      rw [List.length_drop]; omega)]
  · rfl

/-- Witness: the concrete magic-only file. -/
theorem short_header_struct_error_witness :
    read_lamo CW MAGIC = .error .structError := by
  exact (short_header_struct_error CW MAGIC (by rfl) (by decide)).1

/-! Dict lemmas shared by the metadata-defaulting claims. -/

theorem getKey_append_some (m m' : List (String × JVal)) (k : String) (v : JVal)
    (h : getKey m k = some v) : getKey (m ++ m') k = some v := by
  induction m with
  | nil => simp [getKey] at h
  | cons p rest ih =>
    obtain ⟨k', v'⟩ := p
    simp only [getKey, List.cons_append] at h ⊢
    by_cases hk : k' = k
    · rw [if_pos hk] at h ⊢; exact h
    · rw [if_neg hk] at h ⊢; exact ih h

theorem getKey_append_none (m m' : List (String × JVal)) (k : String)
    (h : getKey m k = none) : getKey (m ++ m') k = getKey m' k := by
  induction m with
  | nil => simp
  | cons p rest ih =>
    obtain ⟨k', v'⟩ := p
    simp only [getKey, List.cons_append] at h ⊢
    by_cases hk : k' = k
    · rw [if_pos hk] at h; exact absurd h (by simp)
    · rw [if_neg hk] at h ⊢; exact ih h

theorem getKey_setdefault_some (m : List (String × JVal)) (k k' : String) (v w : JVal)
    (h : getKey m k = some v) : getKey (setdefault m k' w) k = some v := by
  unfold setdefault
  split
  · exact h
  · exact getKey_append_some _ _ _ _ h

theorem getKey_setdefault_self (m : List (String × JVal)) (k : String) (v : JVal)
    (h : getKey m k = none) : getKey (setdefault m k v) k = some v := by
  unfold setdefault
  split
  · rename_i hs
    rw [h] at hs
    exact absurd hs (by simp)
  · rw [getKey_append_none _ _ _ h]
    simp [getKey]

theorem getKey_setdefault_other_none (m : List (String × JVal)) (k k' : String) (v : JVal)
    (hne : k' ≠ k) (h : getKey m k = none) : getKey (setdefault m k' v) k = none := by
  unfold setdefault
  split
  · exact h
  · rw [getKey_append_none _ _ _ h]
    simp [getKey, hne]

/-- C8: in a write without a password, every caller-supplied key keeps
its caller value in the metadata that gets serialized (setdefault never
overwrites), each of the five derived keys is added exactly when the
caller did not supply it, and the successful write emits precisely the
serialization of that defaulted mapping inside the frame. -/
theorem metadata_defaults_do_not_overwrite (img : ImgModel)
    (md : List (String × JVal)) (lvl : Nat) :
    (∀ k v, getKey md k = some v → getKey (finalMeta img (some md) lvl) k = some v) ∧
    (getKey md "width" = none →
      getKey (finalMeta img (some md) lvl) "width" = some (.int img.width)) ∧
    (getKey md "height" = none →
      getKey (finalMeta img (some md) lvl) "height" = some (.int img.height)) ∧
    (getKey md "mode" = none →
      getKey (finalMeta img (some md) lvl) "mode" = some (.str img.mode)) ∧
    (getKey md "inner_format" = none →
      getKey (finalMeta img (some md) lvl) "inner_format" = some (.str (innerFormat img))) ∧
    (getKey md "zlib_level" = none →
      getKey (finalMeta img (some md) lvl) "zlib_level" = some (.int lvl)) ∧
    (∀ compress : Bytes → Bytes,
      (bytesOfChars (jsonDumps (finalMeta img (some md) lvl))).length ≤ MAX_META_SIZE →
      (compress img.png).length < 4294967296 →
      write_lamo compress img (some md) none lvl =
        .ok (frameBytes (bytesOfChars (jsonDumps (finalMeta img (some md) lvl)))
              (compress img.png))) := by
  refine ⟨?_, ?_, ?_, ?_, ?_, ?_, ?_⟩
  · intro k v h
    simp only [finalMeta, Option.getD]
    exact getKey_setdefault_some _ _ _ _ _ (getKey_setdefault_some _ _ _ _ _
      (getKey_setdefault_some _ _ _ _ _ (getKey_setdefault_some _ _ _ _ _
        (getKey_setdefault_some _ _ _ _ _ h))))
  · intro h
    simp only [finalMeta, Option.getD]
    exact getKey_setdefault_some _ _ _ _ _ (getKey_setdefault_some _ _ _ _ _
      (getKey_setdefault_some _ _ _ _ _ (getKey_setdefault_some _ _ _ _ _
        (getKey_setdefault_self _ _ _ h))))
  · intro h
    simp only [finalMeta, Option.getD]
    exact getKey_setdefault_some _ _ _ _ _ (getKey_setdefault_some _ _ _ _ _
      (getKey_setdefault_some _ _ _ _ _ (getKey_setdefault_self _ _ _
        (getKey_setdefault_other_none _ _ _ _ (by decide) h))))
  · intro h
    simp only [finalMeta, Option.getD]
    exact getKey_setdefault_some _ _ _ _ _ (getKey_setdefault_some _ _ _ _ _
      (getKey_setdefault_self _ _ _ (getKey_setdefault_other_none _ _ _ _ (by decide)
        (getKey_setdefault_other_none _ _ _ _ (by decide) h))))
  · intro h
    simp only [finalMeta, Option.getD]
    exact getKey_setdefault_some _ _ _ _ _ (getKey_setdefault_self _ _ _
      (getKey_setdefault_other_none _ _ _ _ (by decide)
        (getKey_setdefault_other_none _ _ _ _ (by decide)
          (getKey_setdefault_other_none _ _ _ _ (by decide) h))))
  · intro h
    simp only [finalMeta, Option.getD]
    exact getKey_setdefault_self _ _ _
      (getKey_setdefault_other_none _ _ _ _ (by decide)
        (getKey_setdefault_other_none _ _ _ _ (by decide)
          (getKey_setdefault_other_none _ _ _ _ (by decide)
            (getKey_setdefault_other_none _ _ _ _ (by decide) h))))
  · intro compress hlen hpack
    unfold write_lamo
    rw [if_neg (show ¬(passTruthy none = true) by simp [passTruthy])]
    rw [if_neg (show ¬((bytesOfChars (jsonDumps (finalMeta img (some md) lvl))).length >
          MAX_META_SIZE) by omega)]
    rw [if_neg (show ¬((compress img.png).length ≥ 4294967296) by omega)]
    rfl

/-- Witness: caller-supplied width 999 survives, height is defaulted
from the image, and the written file embeds exactly the serialized
defaulted metadata. -/
theorem metadata_defaults_do_not_overwrite_witness :
    getKey (finalMeta imgW (some [("width", .int 999)]) 9) "width" = some (.int 999) ∧
    getKey (finalMeta imgW (some [("width", .int 999)]) 9) "height" = some (.int 20) ∧
    write_lamo id imgW (some [("width", .int 999)]) none 9 =
      .ok (frameBytes (bytesOfChars (jsonDumps (finalMeta imgW (some [("width", .int 999)]) 9)))
            [1, 2, 3]) := by
  refine ⟨?_, ?_, ?_⟩
  · exact (metadata_defaults_do_not_overwrite imgW [("width", .int 999)] 9).1
      "width" (.int 999) (by rfl)
  · exact (metadata_defaults_do_not_overwrite imgW [("width", .int 999)] 9).2.2.1 (by rfl)
  · exact (metadata_defaults_do_not_overwrite imgW [("width", .int 999)] 9).2.2.2.2.2.2
      id (by decide) (by decide)

/-- C5: every decryption failure on a read of an encrypted file — wrong
password, tampered ciphertext or structurally invalid token — surfaces as
one and the same error. Fernet raises the bare InvalidToken on every
failure path, whose str() is empty, so the ValueError built at line 144
always carries the fixed prefix with nothing appended (second conjunct),
and any two runs failing for different underlying reasons produce
syntactically identical surfaced errors (third conjunct). -/
theorem decrypt_failures_indistinguishable (C : Collab) (mb payload : Bytes)
    (m : List (String × JVal)) (pw s : String) (salt : Bytes)
    (hm : mb.length ≤ MAX_META_SIZE) (hp : payload.length ≤ MAX_DECOMPRESSED_SIZE)
    (hparse : C.parse mb = .ok (.obj m))
    (henc : truthyOpt (getKey m "encrypted") = true)
    (hpw : C.password = some pw) (hpw2 : pw ≠ "")
    (hsalt : getKey m "salt" = some (.str s))
    (hb64 : b64decode s = some salt)
    (hdec : C.decrypt payload pw salt = none) :
    read_lamo C (frameBytes mb payload) =
      .error (.decryptFailed (decryptFailMsg ++ invalidTokenText)) ∧
    decryptFailMsg ++ invalidTokenText = decryptFailMsg ∧
    ∀ (C₂ : Collab) (mb₂ payload₂ : Bytes) (m₂ : List (String × JVal)) (pw₂ s₂ : String)
      (salt₂ : Bytes),
      mb₂.length ≤ MAX_META_SIZE → payload₂.length ≤ MAX_DECOMPRESSED_SIZE →
      C₂.parse mb₂ = .ok (.obj m₂) → truthyOpt (getKey m₂ "encrypted") = true →
      C₂.password = some pw₂ → pw₂ ≠ "" → getKey m₂ "salt" = some (.str s₂) →
      b64decode s₂ = some salt₂ → C₂.decrypt payload₂ pw₂ salt₂ = none →
      read_lamo C₂ (frameBytes mb₂ payload₂) = read_lamo C (frameBytes mb payload) := by
  have key : ∀ (C' : Collab) (mb' payload' : Bytes) (m' : List (String × JVal))
      (pw' s' : String) (salt' : Bytes),
      mb'.length ≤ MAX_META_SIZE → payload'.length ≤ MAX_DECOMPRESSED_SIZE →
      C'.parse mb' = .ok (.obj m') → truthyOpt (getKey m' "encrypted") = true →
      C'.password = some pw' → pw' ≠ "" → getKey m' "salt" = some (.str s') →
      b64decode s' = some salt' → C'.decrypt payload' pw' salt' = none →
      read_lamo C' (frameBytes mb' payload') =
        .error (.decryptFailed (decryptFailMsg ++ invalidTokenText)) := by
    intro C' mb' payload' m' pw' s' salt' hm' hp' hparse' henc' hpw' hpw2' hsalt' hb64' hdec'
    rw [read_lamo_frame C' mb' payload' hm' hp', hparse']
    dsimp only
    unfold readPayloadStage
    dsimp only
    rw [if_pos henc', hpw']
    dsimp only
    rw [if_neg (show ¬(pw'.isEmpty = true) from fun hh => hpw2' ((String.isEmpty_iff pw').mp hh))]
    rw [hsalt']
    dsimp only
    rw [hb64']
    dsimp only
    rw [hdec']
  refine ⟨key C mb payload m pw s salt hm hp hparse henc hpw hpw2 hsalt hb64 hdec,
    by decide, ?_⟩
  intro C₂ mb₂ payload₂ m₂ pw₂ s₂ salt₂ hm₂ hp₂ hparse₂ henc₂ hpw₂ hpw2₂ hsalt₂ hb64₂ hdec₂
  rw [key C₂ mb₂ payload₂ m₂ pw₂ s₂ salt₂ hm₂ hp₂ hparse₂ henc₂ hpw₂ hpw2₂ hsalt₂ hb64₂ hdec₂,
      key C mb payload m pw s salt hm hp hparse henc hpw hpw2 hsalt hb64 hdec]

/-- Witness: on the concrete encrypted file, a run whose decryptor fails
on everything (a wrong password) and a run whose decryptor fails only on
this payload (tampered ciphertext) surface identical errors. -/
theorem decrypt_failures_indistinguishable_witness :
    read_lamo CW fileEnc = .error (.decryptFailed (decryptFailMsg ++ invalidTokenText)) ∧
    read_lamo CW2 fileEnc = read_lamo CW fileEnc := by
  have h := decrypt_failures_indistinguishable CW (bytesOfChars (jsonDumps mEnc)) [0] mEnc
    "x" "" [] (by decide) (by decide) (by rfl) (by rfl) (by rfl) (by decide)
    (by rfl) (by rfl) (by rfl)
  exact ⟨h.1, h.2.2 CW2 (bytesOfChars (jsonDumps mEnc)) [0] mEnc "x" "" []
    (by decide) (by decide) (by rfl) (by rfl) (by rfl) (by decide) (by rfl) (by rfl) (by rfl)⟩

/-- C9 counterexample: the claim says a file marked encrypted whose
metadata lacks a salt fails with the BadMetadata format error. On the
concrete such file the code instead asks for the password first and then
crashes on `metadata.get("salt").encode` with an untyped AttributeError. -/
theorem missing_salt_is_attribute_error :
    read_lamo CW fileNoSalt = .error (.attrError "encode") ∧
    isTypedValueError (.attrError "encode") = false :=
  ⟨by rfl, by rfl⟩

/-- C9 amended: when the metadata marks the file encrypted, the password
dialog comes first: a cancelled dialog aborts with the password-required
ValueError before the salt is touched and before any decryptor could
run; with a password supplied, a missing (or non-string) salt raises an
untyped AttributeError and a salt with invalid base64 padding raises
binascii.Error, neither being a BadMetadata error. -/
theorem encrypted_salt_password_order (C : Collab) (mb payload : Bytes)
    (m : List (String × JVal))
    (hm : mb.length ≤ MAX_META_SIZE) (hp : payload.length ≤ MAX_DECOMPRESSED_SIZE)
    (hparse : C.parse mb = .ok (.obj m))
    (henc : truthyOpt (getKey m "encrypted") = true) :
    (C.password = none → ∀ d : Bytes → String → Bytes → Option Bytes,
      read_lamo { C with decrypt := d } (frameBytes mb payload) = .error .passwordRequired) ∧
    (∀ pw, C.password = some pw → pw ≠ "" → getKey m "salt" = none →
      read_lamo C (frameBytes mb payload) = .error (.attrError "encode")) ∧
    (∀ pw s, C.password = some pw → pw ≠ "" → getKey m "salt" = some (.str s) →
      b64decode s = none →
      read_lamo C (frameBytes mb payload) = .error .base64Error) := by
  refine ⟨?_, ?_, ?_⟩
  · intro hnone d
    rw [read_lamo_frame { C with decrypt := d } mb payload hm hp]
    rw [show ({ C with decrypt := d } : Collab).parse mb = .ok (.obj m) from hparse]
    dsimp only
    unfold readPayloadStage
    dsimp only
    rw [if_pos henc]
    rw [show ({ C with decrypt := d } : Collab).password = none from hnone]
  · intro pw hpw hpw2 hsalt
    rw [read_lamo_frame C mb payload hm hp, hparse]
    dsimp only
    unfold readPayloadStage
    dsimp only
    rw [if_pos henc, hpw]
    dsimp only
    rw [if_neg (show ¬(pw.isEmpty = true) from fun hh => hpw2 ((String.isEmpty_iff pw).mp hh))]
    rw [hsalt]
  · intro pw s hpw hpw2 hsalt hb64
    rw [read_lamo_frame C mb payload hm hp, hparse]
    dsimp only
    unfold readPayloadStage
    dsimp only
    rw [if_pos henc, hpw]
    dsimp only
    rw [if_neg (show ¬(pw.isEmpty = true) from fun hh => hpw2 ((String.isEmpty_iff pw).mp hh))]
    rw [hsalt]
    dsimp only
    rw [hb64]

/-- Witness: the cancelled dialog on the salt-less encrypted file gives
the password-required error, and a supplied password then hits the
AttributeError. -/
theorem encrypted_salt_password_order_witness :
    read_lamo CNone fileNoSalt = .error .passwordRequired ∧
    read_lamo CW fileNoSalt = .error (.attrError "encode") := by
  constructor
  · exact (encrypted_salt_password_order CNone (bytesOfChars (jsonDumps mNoSalt)) [0] mNoSalt
      (by decide) (by decide) (by rfl) (by rfl)).1 (by rfl) decFail1
  · exact (encrypted_salt_password_order CW (bytesOfChars (jsonDumps mNoSalt)) [0] mNoSalt
      (by decide) (by decide) (by rfl) (by rfl)).2.1 "x" (by rfl) (by decide) (by rfl)

/-- C10: the decryption branch is selected by Python truthiness of the
JSON value under the key encrypted (the model function truthy: absent
key, null, false, zero, empty string, empty array and empty object are
falsy, everything else truthy). A truthy value makes the password dialog
mandatory (cancel aborts with password-required) and routes the payload
through the decryptor; a falsy or absent value makes the read completely
insensitive to both the password reply and the decryptor and goes
straight to decompression; and a write without a password never adds an
encrypted key, so metadata lacking it stays without it. -/
theorem encrypted_flag_truthiness (C : Collab) (mb payload : Bytes)
    (m : List (String × JVal))
    (hparse : C.parse mb = .ok (.obj m)) (hm : mb.length ≤ MAX_META_SIZE)
    (hp : payload.length ≤ MAX_DECOMPRESSED_SIZE) :
    (truthyOpt (getKey m "encrypted") = true → C.password = none →
      read_lamo C (frameBytes mb payload) = .error .passwordRequired) ∧
    (truthyOpt (getKey m "encrypted") = true → ∀ (pw s : String) (salt : Bytes),
      C.password = some pw → pw ≠ "" → getKey m "salt" = some (.str s) →
      b64decode s = some salt →
      (C.decrypt payload pw salt = none →
        read_lamo C (frameBytes mb payload) =
          .error (.decryptFailed (decryptFailMsg ++ invalidTokenText))) ∧
      (∀ dec : Bytes, C.decrypt payload pw salt = some dec →
        read_lamo C (frameBytes mb payload) = finishRead C m dec)) ∧
    (truthyOpt (getKey m "encrypted") = false →
      (∀ (p₁ p₂ : Option String) (d₁ d₂ : Bytes → String → Bytes → Option Bytes),
        read_lamo { C with password := p₁, decrypt := d₁ } (frameBytes mb payload) =
          read_lamo { C with password := p₂, decrypt := d₂ } (frameBytes mb payload)) ∧
      read_lamo C (frameBytes mb payload) = finishRead C m payload) ∧
    (∀ (img : ImgModel) (md : List (String × JVal)) (lvl : Nat),
      getKey md "encrypted" = none →
      getKey (finalMeta img (some md) lvl) "encrypted" = none) := by
  refine ⟨?_, ?_, ?_, ?_⟩
  · intro henc hnone
    rw [read_lamo_frame C mb payload hm hp, hparse]
    dsimp only
    unfold readPayloadStage
    dsimp only
    rw [if_pos henc, hnone]
  · intro henc pw s salt hpw hpw2 hsalt hb64
    constructor
    · intro hdec
      rw [read_lamo_frame C mb payload hm hp, hparse]
      dsimp only
      unfold readPayloadStage
      dsimp only
      rw [if_pos henc, hpw]
      dsimp only
      rw [if_neg (show ¬(pw.isEmpty = true) from fun hh => hpw2 ((String.isEmpty_iff pw).mp hh))]
      rw [hsalt]
      dsimp only
      rw [hb64]
      dsimp only
      rw [hdec]
    · intro dec hdec
      rw [read_lamo_frame C mb payload hm hp, hparse]
      dsimp only
      unfold readPayloadStage
      dsimp only
      rw [if_pos henc, hpw]
      dsimp only
      rw [if_neg (show ¬(pw.isEmpty = true) from fun hh => hpw2 ((String.isEmpty_iff pw).mp hh))]
      rw [hsalt]
      dsimp only
      rw [hb64]
      dsimp only
      rw [hdec]
  · intro henc
    have key : ∀ (p : Option String) (d : Bytes → String → Bytes → Option Bytes),
        read_lamo { C with password := p, decrypt := d } (frameBytes mb payload) =
          finishRead C m payload := by
      intro p d
      rw [read_lamo_frame { C with password := p, decrypt := d } mb payload hm hp]
      rw [show ({ C with password := p, decrypt := d } : Collab).parse mb = .ok (.obj m)
        from hparse]
      dsimp only
      unfold readPayloadStage
      dsimp only
      rw [if_neg (show ¬(truthyOpt (getKey m "encrypted") = true) by simp [henc])]
      rfl
    constructor
    · intro p₁ p₂ d₁ d₂
      rw [key p₁ d₁, key p₂ d₂]
    · exact key C.password C.decrypt
  · intro img md lvl h
    simp only [finalMeta, Option.getD]
    exact getKey_setdefault_other_none _ _ _ _ (by decide)
      (getKey_setdefault_other_none _ _ _ _ (by decide)
        (getKey_setdefault_other_none _ _ _ _ (by decide)
          (getKey_setdefault_other_none _ _ _ _ (by decide)
            (getKey_setdefault_other_none _ _ _ _ (by decide) h))))

/-- Witness: the truthy flag forces the password request on the concrete
encrypted file, a supplied password reaches the decryptor, and a
write-produced metadata without password carries no encrypted key. -/
theorem encrypted_flag_truthiness_witness :
    read_lamo CNone fileEnc = .error .passwordRequired ∧
    read_lamo CW fileEnc = .error (.decryptFailed (decryptFailMsg ++ invalidTokenText)) ∧
    getKey (finalMeta imgW (some [("width", .int 999)]) 9) "encrypted" = none := by
  have hN := encrypted_flag_truthiness CNone (bytesOfChars (jsonDumps mEnc)) [0] mEnc
    (by rfl) (by decide) (by decide)
  have hW := encrypted_flag_truthiness CW (bytesOfChars (jsonDumps mEnc)) [0] mEnc
    (by rfl) (by decide) (by decide)
  refine ⟨hN.1 (by rfl) (by rfl), ?_, ?_⟩
  · exact (hW.2.1 (by rfl) "x" "" [] (by rfl) (by decide) (by rfl) (by rfl)).1 (by rfl)
  · exact hW.2.2.2 imgW [("width", .int 999)] 9 (by rfl)

end Lamo
